import Mathlib

/-!
Verification development for the knowledge ingestion and retrieval engine
of the NAMI researcher repository (src/src/rag/rag_ingestion.py and the
retrieval configuration in src/src/tools_module.py).

Python dictionaries carrying string metadata are embedded as association
lists with Python dict.update semantics; strings are Lean strings with
Python-style slicing and stripping made explicit; the vector store is a
list of persisted chunk documents; the embedding-dependent ranking of a
similarity query is a parameter, since embedding vectors are produced by
an external model. Components whose code lives in library dependencies
rather than in the repository (the text splitter and the MMR ranking) are
modelled from the specification and marked as such.
-/

namespace NamiRag

/-- Lookup in a string-keyed metadata dictionary, embedded as an
association list (first matching key wins, as keys are unique in a dict). -/
def dictGet (d : List (String × String)) (k : String) : Option String :=
  (d.find? (fun p => p.1 == k)).map Prod.snd

/-- Python dict assignment d[k] = v: overwrite the value when the key is
present, otherwise append the new key at the end. -/
def dictInsert (d : List (String × String)) (k v : String) : List (String × String) :=
  if d.any (fun p => p.1 == k) then
    d.map (fun p => if p.1 == k then (k, v) else p)
  else
    d ++ [(k, v)]

/-- Python dict.update: assign every entry of the second dictionary into
the first. Entries of the update override entries of the base. -/
def dictUpdate (base extra : List (String × String)) : List (String × String) :=
  extra.foldl (fun d p => dictInsert d p.1 p.2) base

/-- Python str.strip(): remove whitespace from both ends, counted in code
points. -/
def pyStrip (s : String) : String :=
  String.mk (((s.data.dropWhile Char.isWhitespace).reverse.dropWhile Char.isWhitespace).reverse)

/-- Python slicing s[:n]: the first n code points of the string. -/
def pyTake (s : String) (n : Nat) : String :=
  String.mk (s.data.take n)

/-- Failure modes of the Chunker configuration and input validation. -/
inductive SplitError where
  | invalidSplitConfig
  | emptyInput
deriving DecidableEq

/-- Sliding-window pass of the Chunker: emit windows of chunk_size
characters, each window starting overlap characters before the end of the
previous one, until the remainder fits in one window. The fuel argument
bounds the recursion and is instantiated with the text length. -/
def slideAux (S O : Nat) : Nat → List Char → List (List Char)
  | 0, cs => [cs]
  | Nat.succ fuel, cs =>
    if cs.length ≤ S then [cs]
    else cs.take S :: slideAux S O fuel (cs.drop (S - O))

/-- Modelled from the spec: the Chunker split(text, chunk_size, overlap).
The source delegates chunking to RecursiveCharacterTextSplitter, a library
dependency whose code is not part of the repository. Per the spec:
overlap at least chunk_size is a configuration error InvalidSplitConfig;
text that is empty after trimming fails with EmptyInputError; text whose
trimmed length is at most chunk_size yields the single trimmed chunk;
longer text is cut into windows of chunk_size characters in which each
chunk begins overlap characters before the end of the previous chunk. -/
def splitText (chunk_size chunk_overlap : Nat) (text : String) : Except SplitError (List String) :=
  if chunk_size ≤ chunk_overlap then
    Except.error SplitError.invalidSplitConfig
  else
    let t := pyStrip text
    if t.data.isEmpty then
      Except.error SplitError.emptyInput
    else
      Except.ok ((slideAux chunk_size chunk_overlap t.data.length t.data).map (fun cs => String.mk cs))

/-- One persisted chunk document: page content plus metadata. The string
metadata dictionary holds topic, source, created_at, collection and any
caller-supplied entries; the integer entries chunk_id and total_chunks
assigned by the ingestion loop are carried as separate typed fields. -/
structure ChunkDoc where
  page_content : String
  meta : List (String × String)
  chunk_id : Nat
  total_chunks : Nat
deriving DecidableEq

/-- The vector store contents visible to this model: the list of persisted
chunk documents, in insertion order. -/
structure VectorStore where
  docs : List ChunkDoc
deriving DecidableEq

/-- Result dictionary of one add_report call. -/
structure AddResult where
  success : Bool
  error : Option String
  chunks_added : Option Nat
  topic : String
deriving DecidableEq

/-- Base metadata of RAGIngestion.add_report: topic, source, created_at,
collection, in insertion order. now stands for datetime.now().isoformat(). -/
def baseMetadata (topic now collection : String) : List (String × String) :=
  [("topic", topic), ("source", "research_report"),
   ("created_at", now), ("collection", collection)]

/-- The document-building loop of add_report: for i, chunk in
enumerate(chunks), copy the document metadata and attach chunk_id = i and
total_chunks. -/
def mkDocuments (doc_metadata : List (String × String)) (total : Nat) :
    Nat → List String → List ChunkDoc
  | _, [] => []
  | i, c :: cs =>
    { page_content := c, meta := doc_metadata, chunk_id := i, total_chunks := total }
      :: mkDocuments doc_metadata total (i + 1) cs

/-- Core of RAGIngestion.add_report: validation, metadata preparation,
chunking and document construction. Returns the result dictionary together
with the list of documents handed to the vector store (empty on every
failure path, so the store is unchanged there). -/
def addReportCore (now collection report_content topic : String)
    (metadata : List (String × String)) (chunk_size chunk_overlap : Nat) :
    AddResult × List ChunkDoc :=
  if report_content.isEmpty || (pyStrip report_content).length < 100 then
    ({ success := false,
       error := some "Report content is too short or empty (minimum 100 characters required)",
       chunks_added := none, topic := topic }, [])
  else
    let doc_metadata := dictUpdate (baseMetadata topic now collection) metadata
    match splitText chunk_size chunk_overlap report_content with
    | Except.error _ =>
        ({ success := false,
           error := some "text splitter configuration or input error",
           chunks_added := none, topic := topic }, [])
    | Except.ok raw =>
        let chunks := (raw.map pyStrip).filter (fun c => !c.isEmpty)
        if chunks.isEmpty then
          ({ success := false,
             error := some "No valid text chunks could be generated from report",
             chunks_added := none, topic := topic }, [])
        else
          ({ success := true, error := none,
             chunks_added := some chunks.length, topic := topic },
           mkDocuments doc_metadata chunks.length 0 chunks)

/-- RAGIngestion.add_report: run the core pipeline and append the produced
documents to the vector store (vectorstore.add_documents). -/
def add_report (now collection : String) (store : VectorStore)
    (report_content topic : String) (metadata : List (String × String))
    (chunk_size chunk_overlap : Nat) : AddResult × VectorStore :=
  let p := addReportCore now collection report_content topic metadata chunk_size chunk_overlap
  (p.1, { docs := store.docs ++ p.2 })

/-- One entry of the reports list passed to add_multiple_reports, with the
content and topic entries and the optional metadata entry. -/
structure Report where
  content : String
  topic : String
  metadata : List (String × String)

/-- Accumulated result of add_multiple_reports. -/
structure BatchResult where
  successful : Nat
  failed : Nat
  details : List AddResult

/-- The outcome of ingesting one report, as a function of that report
alone: the add_report result dictionary does not depend on the store. -/
def reportOutcome (now collection : String) (r : Report) : AddResult :=
  (addReportCore now collection r.content r.topic r.metadata 1000 200).1

/-- One iteration of the add_multiple_reports loop: ingest the report with
the default chunking configuration, bump the matching counter and append
the per-report result to the details list. -/
def batchStep (now collection : String) (acc : BatchResult × VectorStore)
    (r : Report) : BatchResult × VectorStore :=
  let p := add_report now collection acc.2 r.content r.topic r.metadata 1000 200
  ({ successful := acc.1.successful + (if p.1.success then 1 else 0),
     failed := acc.1.failed + (if p.1.success then 0 else 1),
     details := acc.1.details ++ [p.1] }, p.2)

/-- RAGIngestion.add_multiple_reports: ingest each report in list order,
count successes and failures and collect the per-report results. -/
def add_multiple_reports (now collection : String) (store : VectorStore)
    (reports : List Report) : BatchResult × VectorStore :=
  reports.foldl (batchStep now collection)
    ({ successful := 0, failed := 0, details := [] }, store)

/-- Descending-relevance order used by the similarity ranking: a comes
before b when the relevance score of b is at most that of a. -/
def relGE (rel : α → ℚ) (a b : α) : Prop := rel b ≤ rel a

instance (rel : α → ℚ) : DecidableRel (relGE rel) := fun a b => by
  unfold relGE; infer_instance

instance (rel : α → ℚ) : IsTotal α (relGE rel) :=
  ⟨fun a b => le_total (rel b) (rel a)⟩

instance (rel : α → ℚ) : IsTrans α (relGE rel) :=
  ⟨fun _ _ _ h h2 => le_trans h2 h⟩

/-- Modelled from the spec: similarity_search(query_vector, k) of the
Vector Store, an external capability behind the Chroma adapter. It returns
the k nearest candidates in descending-relevance order; the relevance
score of each document against the query is abstracted as a function,
since embedding vectors are produced by an external model. -/
def similaritySearch (rel : α → ℚ) (k : Nat) (docs : List α) : List α :=
  (List.insertionSort (relGE rel) docs).take k

/-- Maximal similarity of a candidate against the already selected
documents, zero when nothing has been selected yet. -/
def maxSim (sim : α → α → ℚ) (c : α) : List α → ℚ
  | [] => 0
  | d :: ds => max (sim c d) (maxSim sim c ds)

/-- The greedy MMR objective for one candidate:
lambda * relevance(candidate, query) minus
(1 - lambda) * max_similarity(candidate, already_selected). -/
def mmrScore (lam : ℚ) (rel : α → ℚ) (sim : α → α → ℚ) (selected : List α) (c : α) : ℚ :=
  lam * rel c - (1 - lam) * maxSim sim c selected

/-- Remove the first candidate attaining the maximal score from a list,
returning it together with the remaining candidates. -/
def extractMax (score : α → ℚ) : List α → Option (α × List α)
  | [] => none
  | c :: cs =>
    match extractMax score cs with
    | none => some (c, cs)
    | some (b, rest) => if score c < score b then some (b, c :: rest) else some (c, cs)

/-- Greedy MMR selection: repeatedly pick the candidate maximizing the MMR
objective against the selected set, until k are chosen or the candidates
are exhausted. -/
def mmrGreedy (lam : ℚ) (rel : α → ℚ) (sim : α → α → ℚ) :
    Nat → List α → List α → List α
  | 0, _, _ => []
  | Nat.succ k, selected, cands =>
    match extractMax (mmrScore lam rel sim selected) cands with
    | none => []
    | some (c, rest) => c :: mmrGreedy lam rel sim k (selected ++ [c]) rest

/-- Modelled from the spec: mmr_search(query_vector, k, fetch_k, lambda)
of the Vector Store. First retrieve the fetch_k nearest candidates by
similarity, then greedily select k of them by the MMR objective. The
pairwise similarity between documents is abstracted as a function, like
the relevance against the query. -/
def mmrSearch (rel : α → ℚ) (sim : α → α → ℚ) (lam : ℚ)
    (k fetch_k : Nat) (docs : List α) : List α :=
  mmrGreedy lam rel sim k [] (similaritySearch rel fetch_k docs)

/-- The retrieval callback built by verify_ingestion and
list_ingested_reports from the Chroma retriever with search_kwargs k: a
similarity query over the whole store, ranked by the query-dependent
relevance function. This retrieval never fails; an unreachable store is
modelled by passing a failing callback instead. -/
def chromaRetrieve (rel : String → ChunkDoc → ℚ) (k : Nat) (store : VectorStore) :
    String → Except String (List ChunkDoc) :=
  fun q => Except.ok (similaritySearch (rel q) k store.docs)

/-- Result dictionary of verify_ingestion. A field holding none stands for
a key that is absent from the returned dictionary; sample_content holding
some none stands for the key being present with value None. -/
structure VerifyResult where
  found : Bool
  chunks_found : Option Nat
  total_results : Option Nat
  sample_content : Option (Option String)
  error : Option String
deriving DecidableEq

/-- RAGIngestion.verify_ingestion: run a similarity query for the topic
(or the explicit query when given), filter the results whose metadata
topic equals the requested topic, and report counts plus a 200-character
preview of the first match. A failing store operation is caught and
reported as found=false with an error message. -/
def verify_ingestion (topic : String) (query : Option String)
    (retrieve : String → Except String (List ChunkDoc)) : VerifyResult :=
  match retrieve (query.getD topic) with
  | Except.error e =>
      { found := false, chunks_found := none, total_results := none,
        sample_content := none, error := some e }
  | Except.ok docs =>
      let topic_docs := docs.filter (fun d => dictGet d.meta "topic" == some topic)
      { found := decide (0 < topic_docs.length),
        chunks_found := some topic_docs.length,
        total_results := some docs.length,
        sample_content := some (topic_docs.head?.map (fun d => pyTake d.page_content 200)),
        error := none }

/-- One entry of the list returned by list_ingested_reports. -/
structure IngestionRecord where
  topic : String
  created_at : Option String
  chunks : Nat
deriving DecidableEq

/-- The deduplication loop of list_ingested_reports: keep the first record
seen for each non-empty topic. -/
def listTopicsAux : List ChunkDoc → List IngestionRecord → List IngestionRecord
  | [], acc => acc
  | d :: ds, acc =>
    match dictGet d.meta "topic" with
    | none => listTopicsAux ds acc
    | some t =>
      if t.isEmpty || acc.any (fun r => r.topic == t) then
        listTopicsAux ds acc
      else
        listTopicsAux ds
          (acc ++ [{ topic := t, created_at := dictGet d.meta "created_at",
                     chunks := d.total_chunks }])

/-- RAGIngestion.list_ingested_reports: sample the store with the generic
query string research and deduplicate by first-seen topic. A failing store
operation is caught and the empty list is returned. -/
def list_ingested_reports (retrieve : String → Except String (List ChunkDoc)) :
    List IngestionRecord :=
  match retrieve "research" with
  | Except.error _ => []
  | Except.ok docs => listTopicsAux docs []

/-- A report body of one hundred characters, the shortest content accepted
by the ingestion validation. -/
def content100 : String := String.mk (List.replicate 100 'a')

/-- A persisted chunk of an unrelated topic, used to populate test stores. -/
def otherDoc (i : Nat) : ChunkDoc :=
  { page_content := "other content", meta := [("topic", "other")],
    chunk_id := i, total_chunks := 3 }

/-- A store already holding three chunks of an unrelated topic. -/
def store0 : VectorStore := { docs := [otherDoc 0, otherDoc 1, otherDoc 2] }

/-- A relevance ranking under which the unrelated chunks beat every other
document for every query. -/
def relOther : String → ChunkDoc → ℚ :=
  fun _ d => if dictGet d.meta "topic" == some "other" then 1 else 0

/-- A relevance ranking that ties every document. -/
def relZero : String → ChunkDoc → ℚ := fun _ _ => 0

end NamiRag

namespace NamiRag

/-! Helper lemmas shared between the claim theorems. -/

theorem pyStrip_length (s : String) :
    (pyStrip s).length =
      (((s.data.dropWhile Char.isWhitespace).reverse.dropWhile Char.isWhitespace).reverse).length := rfl

theorem add_report_fst (now coll : String) (store : VectorStore)
    (content topic : String) (md : List (String × String)) (S O : Nat) :
    (add_report now coll store content topic md S O).1 =
      (addReportCore now coll content topic md S O).1 := rfl

theorem add_report_snd (now coll : String) (store : VectorStore)
    (content topic : String) (md : List (String × String)) (S O : Nat) :
    (add_report now coll store content topic md S O).2.docs =
      store.docs ++ (addReportCore now coll content topic md S O).2 := rfl

theorem addReportCore_short (now coll content topic : String)
    (md : List (String × String)) (S O : Nat)
    (h : (pyStrip content).length < 100) :
    addReportCore now coll content topic md S O =
      ({ success := false,
         error := some "Report content is too short or empty (minimum 100 characters required)",
         chunks_added := none, topic := topic }, []) := by
  unfold addReportCore
  have hc : (content.isEmpty || decide ((pyStrip content).length < 100)) = true := by
    simp [h]
  rw [if_pos hc]

/-- C2: for every content string whose trimmed length is below 100
characters, add_report returns success=false with the content-too-short
error, and performs no chunking and no write: the vector store is exactly
the same after the call as before it. -/
theorem add_report_short_rejected (now coll : String) (store : VectorStore)
    (content topic : String) (md : List (String × String)) (S O : Nat)
    (h : (pyStrip content).length < 100) :
    add_report now coll store content topic md S O =
      ({ success := false,
         error := some "Report content is too short or empty (minimum 100 characters required)",
         chunks_added := none, topic := topic }, store) := by
  unfold add_report
  rw [addReportCore_short now coll content topic md S O h]
  simp

/-- Witness for add_report_short_rejected at the five-character content
string of Scenario B. -/
theorem add_report_short_rejected_witness :
    (pyStrip "short").length < 100 ∧
      add_report "t0" "research_reports" store0 "short" "T" [] 1000 200 =
        ({ success := false,
           error := some "Report content is too short or empty (minimum 100 characters required)",
           chunks_added := none, topic := "T" }, store0) :=
  ⟨by decide,
   add_report_short_rejected "t0" "research_reports" store0 "short" "T" [] 1000 200 (by decide)⟩

/-- C5: for every configuration with overlap at least chunk_size, the
splitter fails with the InvalidSplitConfig error and produces no chunks,
including the boundary case overlap = chunk_size. -/
theorem splitText_invalid_config (S O : Nat) (text : String) (h : S ≤ O) :
    splitText S O text = Except.error SplitError.invalidSplitConfig := by
  unfold splitText
  rw [if_pos h]

/-- Witness for splitText_invalid_config at the boundary case where
overlap equals chunk_size. -/
theorem splitText_invalid_config_witness :
    (5 : Nat) ≤ 5 ∧
      splitText 5 5 "abcdefgh" = Except.error SplitError.invalidSplitConfig :=
  ⟨by decide, splitText_invalid_config 5 5 "abcdefgh" (by decide)⟩

theorem slideAux_of_le (S O fuel : Nat) (cs : List Char) (h : cs.length ≤ S) :
    slideAux S O fuel cs = [cs] := by
  cases fuel with
  | zero => rfl
  | succ n =>
    unfold slideAux
    rw [if_pos h]

theorem slideAux_length (S O : Nat) (hO : O < S) :
    ∀ (fuel : Nat) (cs : List Char), cs.length ≤ fuel + S →
      (slideAux S O fuel cs).length =
        if cs.length ≤ S then 1 else (cs.length - O + (S - O) - 1) / (S - O) := by
  intro fuel
  induction fuel with
  | zero =>
    intro cs hlen
    have h : cs.length ≤ S := by omega
    rw [slideAux_of_le S O 0 cs h, if_pos h]
    rfl
  | succ n ih =>
    intro cs hlen
    by_cases h : cs.length ≤ S
    · rw [slideAux_of_le _ _ _ _ h, if_pos h]
      rfl
    · unfold slideAux
      rw [if_neg h, if_neg h]
      simp only [List.length_cons]
      have hd : 0 < S - O := by omega
      have hdl : (cs.drop (S - O)).length = cs.length - (S - O) := by
        simp [List.length_drop]
      rw [ih (cs.drop (S - O)) (by rw [hdl]; omega), hdl]
      by_cases h2 : cs.length - (S - O) ≤ S
      · rw [if_pos h2]
        have h3 : 2 * (S - O) ≤ cs.length - O + (S - O) - 1 := by omega
        have h4 : cs.length - O + (S - O) - 1 < (2 + 1) * (S - O) := by omega
        have h5 := Nat.div_eq_of_lt_le h3 h4
        omega
      · rw [if_neg h2]
        have he : cs.length - O + (S - O) - 1 =
            (cs.length - (S - O) - O + (S - O) - 1) + (S - O) := by omega
        rw [he, Nat.add_div_right _ hd]

/-- C4: for every text whose trimmed length L satisfies L ≤ S the splitter
returns the single trimmed chunk, and for L > S with O < S it returns
exactly ceil((L-O)/(S-O)) chunks, written with natural division as
(L - O + (S - O) - 1) / (S - O). -/
theorem splitText_chunk_count (S O : Nat) (text : String) (chunks : List String)
    (h : splitText S O text = Except.ok chunks) :
    ((pyStrip text).length ≤ S → chunks = [pyStrip text]) ∧
    (S < (pyStrip text).length →
      chunks.length = ((pyStrip text).length - O + (S - O) - 1) / (S - O)) := by
  unfold splitText at h
  by_cases h1 : S ≤ O
  · rw [if_pos h1] at h
    exact absurd h (by simp)
  · rw [if_neg h1] at h
    by_cases h2 : (pyStrip text).data.isEmpty
    · simp only [h2, if_true] at h
      exact absurd h (by simp)
    · simp only [h2, Bool.false_eq_true, if_false, Except.ok.injEq] at h
      have hLen : (pyStrip text).length = (pyStrip text).data.length := rfl
      constructor
      · intro hle
        have hle' : (pyStrip text).data.length ≤ S := by omega
        rw [← h, slideAux_of_le S O ((pyStrip text).data.length) ((pyStrip text).data) hle']
        rfl
      · intro hgt
        rw [hLen, ← h, List.length_map,
          slideAux_length S O (by omega) ((pyStrip text).data.length) ((pyStrip text).data)
            (by omega)]
        rw [if_neg (by omega : ¬ (pyStrip text).data.length ≤ S)]

/-- Witness for splitText_chunk_count on an eight-character text split
with chunk_size 5 and overlap 2: two chunks, matching ceil((8-2)/3) = 2. -/
theorem splitText_chunk_count_witness :
    splitText 5 2 "abcdefgh" = Except.ok ["abcde", "defgh"] ∧
    (((pyStrip "abcdefgh").length ≤ 5 →
        (["abcde", "defgh"] : List String) = [pyStrip "abcdefgh"]) ∧
     (5 < (pyStrip "abcdefgh").length →
        (["abcde", "defgh"] : List String).length =
          ((pyStrip "abcdefgh").length - 2 + (5 - 2) - 1) / (5 - 2))) :=
  ⟨rfl, splitText_chunk_count 5 2 "abcdefgh" ["abcde", "defgh"] rfl⟩

theorem mkDocuments_length (m : List (String × String)) (t : Nat) :
    ∀ (i : Nat) (cs : List String), (mkDocuments m t i cs).length = cs.length := by
  intro i cs
  induction cs generalizing i with
  | nil => rfl
  | cons c cs ih => simp [mkDocuments, ih]

theorem mkDocuments_map_chunk_id (m : List (String × String)) (t : Nat) :
    ∀ (i : Nat) (cs : List String),
      (mkDocuments m t i cs).map (fun d => d.chunk_id) = List.range' i cs.length := by
  intro i cs
  induction cs generalizing i with
  | nil => rfl
  | cons c cs ih => simp [mkDocuments, ih, List.range'_succ]

theorem mkDocuments_mem (m : List (String × String)) (t : Nat) :
    ∀ (i : Nat) (cs : List String) (d : ChunkDoc), d ∈ mkDocuments m t i cs →
      d.meta = m ∧ d.total_chunks = t := by
  intro i cs
  induction cs generalizing i with
  | nil =>
    intro d hd
    simp [mkDocuments] at hd
  | cons c cs ih =>
    intro d hd
    simp only [mkDocuments, List.mem_cons] at hd
    rcases hd with hd | hd
    · rw [hd]
      exact ⟨rfl, rfl⟩
    · exact ih (i + 1) d hd

theorem addReportCore_success (now coll content topic : String)
    (md : List (String × String)) (S O : Nat)
    (hs : (addReportCore now coll content topic md S O).1.success = true) :
    ∃ chunks : List String, chunks ≠ [] ∧
      addReportCore now coll content topic md S O =
        ({ success := true, error := none, chunks_added := some chunks.length,
           topic := topic },
         mkDocuments (dictUpdate (baseMetadata topic now coll) md)
           chunks.length 0 chunks) := by
  simp only [addReportCore] at hs ⊢
  by_cases h1 : (content.isEmpty || decide ((pyStrip content).length < 100)) = true
  · rw [if_pos h1] at hs
    simp at hs
  · rw [if_neg h1] at hs ⊢
    cases hsp : splitText S O content with
    | error e =>
      rw [hsp] at hs
      simp at hs
    | ok raw =>
      rw [hsp] at hs
      dsimp only at hs ⊢
      by_cases h2 : ((raw.map pyStrip).filter (fun c => !c.isEmpty)).isEmpty = true
      · rw [if_pos h2] at hs
        simp at hs
      · rw [if_neg h2]
        refine ⟨(raw.map pyStrip).filter (fun c => !c.isEmpty), ?_, rfl⟩
        simpa [List.isEmpty_iff] using h2

/-- C3: every successful add_report call appends to the store a block of
chunks whose chunk_id values are exactly the contiguous range from 0 to
the number of chunks, in chunking order, each carrying that same number as
total_chunks, which is also the reported chunks_added. -/
theorem add_report_chunk_ids (now coll : String) (store : VectorStore)
    (content topic : String) (md : List (String × String)) (S O : Nat)
    (res : AddResult) (store' : VectorStore)
    (h : add_report now coll store content topic md S O = (res, store'))
    (hs : res.success = true) :
    ∃ new : List ChunkDoc,
      store'.docs = store.docs ++ new ∧
      res.chunks_added = some new.length ∧
      new.map (fun d => d.chunk_id) = List.range new.length ∧
      ∀ d ∈ new, d.total_chunks = new.length := by
  have hres : res = (addReportCore now coll content topic md S O).1 :=
    (congrArg Prod.fst h).symm
  have hdocs : store'.docs =
      store.docs ++ (addReportCore now coll content topic md S O).2 :=
    (congrArg (fun p => (Prod.snd p).docs) h).symm
  rw [hres] at hs
  obtain ⟨chunks, hne, hcore⟩ := addReportCore_success now coll content topic md S O hs
  refine ⟨(addReportCore now coll content topic md S O).2, hdocs, ?_, ?_, ?_⟩
  · rw [hres, hcore]
    simp [mkDocuments_length]
  · rw [hcore]
    simp only
    rw [mkDocuments_map_chunk_id, mkDocuments_length, List.range_eq_range']
  · rw [hcore]
    simp only
    intro d hd
    rw [mkDocuments_length]
    exact (mkDocuments_mem _ _ _ _ d hd).2

/-- Witness for add_report_chunk_ids: ingesting a one-hundred-character
report into an empty store persists one block of chunks numbered from 0. -/
theorem add_report_chunk_ids_witness :
    ∃ new : List ChunkDoc,
      (add_report "t0" "research_reports" { docs := [] } content100 "T" [] 1000 200).2.docs =
        ({ docs := [] } : VectorStore).docs ++ new ∧
      (add_report "t0" "research_reports" { docs := [] } content100 "T" [] 1000 200).1.chunks_added =
        some new.length ∧
      new.map (fun d => d.chunk_id) = List.range new.length ∧
      ∀ d ∈ new, d.total_chunks = new.length :=
  add_report_chunk_ids "t0" "research_reports" { docs := [] } content100 "T" [] 1000 200
    (add_report "t0" "research_reports" { docs := [] } content100 "T" [] 1000 200).1
    (add_report "t0" "research_reports" { docs := [] } content100 "T" [] 1000 200).2
    rfl (by decide)

theorem find?_map_keep_ne (k k' v : String) (h : k' ≠ k) :
    ∀ d : List (String × String),
      (d.map (fun p => if p.1 == k' then (k', v) else p)).find? (fun p => p.1 == k) =
        d.find? (fun p => p.1 == k) := by
  intro d
  induction d with
  | nil => rfl
  | cons p ps ih =>
    simp only [List.map_cons]
    cases hpk : (p.1 == k) with
    | true =>
      have hpk' : p.1 = k := by simpa using hpk
      have hne : (p.1 == k') = false := by
        rw [beq_eq_false_iff_ne, hpk']
        exact Ne.symm h
      rw [hne]
      simp only [Bool.false_eq_true, if_false]
      rw [@List.find?_cons_of_pos _ (fun q => q.1 == k) p _ hpk,
        @List.find?_cons_of_pos _ (fun q => q.1 == k) p _ hpk]
    | false =>
      have hL : ((if p.1 == k' then (k', v) else p).1 == k) = false := by
        cases hkk : (p.1 == k') with
        | true => simpa [beq_eq_false_iff_ne] using h
        | false => simpa using hpk
      rw [@List.find?_cons_of_neg (String × String) (fun q => q.1 == k)
          (if p.1 == k' then (k', v) else p)
          (List.map (fun q => if q.1 == k' then (k', v) else q) ps)
          (by simp only [hL]; simp),
        @List.find?_cons_of_neg (String × String) (fun q => q.1 == k) p ps
          (by simp [hpk]), ih]

theorem dictGet_dictInsert_ne (d : List (String × String)) (k k' v : String)
    (h : k' ≠ k) :
    dictGet (dictInsert d k' v) k = dictGet d k := by
  unfold dictInsert dictGet
  by_cases hany : d.any (fun p => p.1 == k') = true
  · rw [if_pos hany, find?_map_keep_ne k k' v h d]
  · rw [if_neg hany, List.find?_append]
    have h1 : List.find? (fun p => p.1 == k) [(k', v)] = none := by
      rw [List.find?_cons_of_neg _ (by simp [h]), List.find?_nil]
    rw [h1, Option.or_none]

theorem dictGet_dictUpdate_absent (k : String) :
    ∀ (extra base : List (String × String)), dictGet extra k = none →
      dictGet (dictUpdate base extra) k = dictGet base k := by
  intro extra
  induction extra with
  | nil =>
    intro base _
    rfl
  | cons p ps ih =>
    intro base h
    have hpk : (p.1 == k) = false := by
      cases hpk : (p.1 == k) with
      | true =>
        rw [show dictGet (p :: ps) k =
            (List.find? (fun q => q.1 == k) (p :: ps)).map Prod.snd from rfl,
          @List.find?_cons_of_pos _ (fun q => q.1 == k) p ps hpk] at h
        simp at h
      | false => rfl
    have hps : dictGet ps k = none := by
      rw [show dictGet (p :: ps) k =
          (List.find? (fun q => q.1 == k) (p :: ps)).map Prod.snd from rfl,
        @List.find?_cons_of_neg _ (fun q => q.1 == k) p ps (by simp [hpk])] at h
      exact h
    rw [show dictUpdate base (p :: ps) = dictUpdate (dictInsert base p.1 p.2) ps from rfl,
      ih (dictInsert base p.1 p.2) hps,
      dictGet_dictInsert_ne base k p.1 p.2 (ne_of_beq_false hpk)]

theorem addReportCore_docs_meta (now coll content topic : String)
    (md : List (String × String)) (S O : Nat) :
    ∀ d ∈ (addReportCore now coll content topic md S O).2,
      d.meta = dictUpdate (baseMetadata topic now coll) md := by
  intro d hd
  simp only [addReportCore] at hd
  by_cases h1 : (content.isEmpty || decide ((pyStrip content).length < 100)) = true
  · rw [if_pos h1] at hd
    simp at hd
  · rw [if_neg h1] at hd
    cases hsp : splitText S O content with
    | error e =>
      rw [hsp] at hd
      simp at hd
    | ok raw =>
      rw [hsp] at hd
      dsimp only at hd
      by_cases h2 : ((raw.map pyStrip).filter (fun c => !c.isEmpty)).isEmpty = true
      · rw [if_pos h2] at hd
        simp at hd
      · rw [if_neg h2] at hd
        exact (mkDocuments_mem _ _ _ _ d hd).1

/-- C1 counterexample: ingesting a valid report with caller metadata
containing a topic key persists a chunk whose metadata topic is the caller
value, not the topic argument of the call. -/
theorem add_report_topic_override_cex :
    (add_report "t0" "research_reports" { docs := [] } content100 "T"
        [("topic", "X")] 1000 200).1.success = true ∧
    (add_report "t0" "research_reports" { docs := [] } content100 "T"
        [("topic", "X")] 1000 200).2.docs.map (fun d => dictGet d.meta "topic") =
      [some "X"] ∧
    some "X" ≠ (some "T" : Option String) :=
  ⟨by decide, by decide, by decide⟩

/-- C1 amended: caller-supplied metadata overrides every default field,
including topic; whenever the caller metadata carries no topic key, the
metadata of every chunk persisted by the call has its topic field equal to
the topic argument. -/
theorem add_report_topic_metadata (now coll : String) (store : VectorStore)
    (content topic : String) (md : List (String × String)) (S O : Nat)
    (res : AddResult) (store' : VectorStore)
    (h : add_report now coll store content topic md S O = (res, store'))
    (hmd : dictGet md "topic" = none) :
    ∀ d ∈ store'.docs.drop store.docs.length, dictGet d.meta "topic" = some topic := by
  intro d hd
  have hdocs : store'.docs =
      store.docs ++ (addReportCore now coll content topic md S O).2 :=
    (congrArg (fun p => (Prod.snd p).docs) h).symm
  rw [hdocs, List.drop_left] at hd
  rw [addReportCore_docs_meta now coll content topic md S O d hd,
    dictGet_dictUpdate_absent "topic" md (baseMetadata topic now coll) hmd]
  rfl

/-- Witness for add_report_topic_metadata: with no caller metadata, the
single chunk persisted for a one-hundred-character report carries the
topic argument in its metadata. -/
theorem add_report_topic_metadata_witness :
    dictGet (ChunkDoc.mk content100 (baseMetadata "T" "t0" "research_reports") 0 1).meta
        "topic" = some "T" :=
  add_report_topic_metadata "t0" "research_reports" { docs := [] } content100 "T" [] 1000 200
    (add_report "t0" "research_reports" { docs := [] } content100 "T" [] 1000 200).1
    (add_report "t0" "research_reports" { docs := [] } content100 "T" [] 1000 200).2
    rfl rfl
    (ChunkDoc.mk content100 (baseMetadata "T" "t0" "research_reports") 0 1)
    (by decide)

theorem length_filter_add (p : α → Bool) (l : List α) :
    (l.filter p).length + (l.filter (fun a => !(p a))).length = l.length := by
  induction l with
  | nil => rfl
  | cons a l ih =>
    cases hpa : p a <;> simp [List.filter_cons, hpa] <;> omega

theorem batchStep_fst_details (now coll : String) (acc : BatchResult × VectorStore)
    (r : Report) :
    (batchStep now coll acc r).1.details = acc.1.details ++ [reportOutcome now coll r] := rfl

theorem batchStep_fst_successful (now coll : String) (acc : BatchResult × VectorStore)
    (r : Report) :
    (batchStep now coll acc r).1.successful =
      acc.1.successful + (if (reportOutcome now coll r).success then 1 else 0) := rfl

theorem batchStep_fst_failed (now coll : String) (acc : BatchResult × VectorStore)
    (r : Report) :
    (batchStep now coll acc r).1.failed =
      acc.1.failed + (if (reportOutcome now coll r).success then 0 else 1) := rfl

theorem batch_foldl (now coll : String) :
    ∀ (reports : List Report) (acc : BatchResult × VectorStore),
      ((reports.foldl (batchStep now coll) acc).1.details =
        acc.1.details ++ reports.map (reportOutcome now coll)) ∧
      ((reports.foldl (batchStep now coll) acc).1.successful =
        acc.1.successful +
          (reports.filter (fun r => (reportOutcome now coll r).success)).length) ∧
      ((reports.foldl (batchStep now coll) acc).1.failed =
        acc.1.failed +
          (reports.filter (fun r => !(reportOutcome now coll r).success)).length) := by
  intro reports
  induction reports with
  | nil =>
    intro acc
    simp
  | cons r rs ih =>
    intro acc
    rw [List.foldl_cons]
    obtain ⟨ih1, ih2, ih3⟩ := ih (batchStep now coll acc r)
    refine ⟨?_, ?_, ?_⟩
    · rw [ih1, batchStep_fst_details]
      simp
    · rw [ih2, batchStep_fst_successful]
      cases hr : (reportOutcome now coll r).success <;>
        simp [List.filter_cons, hr] <;> omega
    · rw [ih3, batchStep_fst_failed]
      cases hr : (reportOutcome now coll r).success <;>
        simp [List.filter_cons, hr] <;> omega

/-- C8: add_multiple_reports processes every report in list order and
continues past per-report failures: the details list holds exactly one
result per input report in input order, each the outcome of that report
alone (independent of the store and of the sibling reports), and the
successful and failed counters sum to the number of reports. -/
theorem add_multiple_reports_spec (now coll : String) (store : VectorStore)
    (reports : List Report) :
    (add_multiple_reports now coll store reports).1.details =
      reports.map (reportOutcome now coll) ∧
    (add_multiple_reports now coll store reports).1.details.length = reports.length ∧
    (add_multiple_reports now coll store reports).1.successful +
      (add_multiple_reports now coll store reports).1.failed = reports.length := by
  obtain ⟨h1, h2, h3⟩ := batch_foldl now coll reports
    ({ successful := 0, failed := 0, details := [] }, store)
  refine ⟨?_, ?_, ?_⟩
  · rw [show (add_multiple_reports now coll store reports).1.details =
        (reports.foldl (batchStep now coll)
          ({ successful := 0, failed := 0, details := [] }, store)).1.details from rfl,
      h1]
    simp
  · rw [show (add_multiple_reports now coll store reports).1.details =
        (reports.foldl (batchStep now coll)
          ({ successful := 0, failed := 0, details := [] }, store)).1.details from rfl,
      h1]
    simp
  · rw [show (add_multiple_reports now coll store reports).1.successful =
        (reports.foldl (batchStep now coll)
          ({ successful := 0, failed := 0, details := [] }, store)).1.successful from rfl,
      show (add_multiple_reports now coll store reports).1.failed =
        (reports.foldl (batchStep now coll)
          ({ successful := 0, failed := 0, details := [] }, store)).1.failed from rfl,
      h2, h3]
    simpa using length_filter_add (fun r => (reportOutcome now coll r).success) reports

theorem mmrScore_one (rel : α → ℚ) (sim : α → α → ℚ) (selected : List α) :
    mmrScore 1 rel sim selected = fun c => rel c := by
  funext c
  unfold mmrScore
  ring

theorem extractMax_sorted (score : α → ℚ) :
    ∀ (c : α) (cs : List α),
      List.Pairwise (fun a b => score b ≤ score a) (c :: cs) →
      extractMax score (c :: cs) = some (c, cs) := by
  intro c cs
  induction cs generalizing c with
  | nil =>
    intro _
    rfl
  | cons d ds ih =>
    intro hp
    have hsel : score d ≤ score c := (List.pairwise_cons.mp hp).1 d (by simp)
    have hd : extractMax score (d :: ds) = some (d, ds) :=
      ih d (List.pairwise_cons.mp hp).2
    rw [show extractMax score (c :: d :: ds) =
        (match extractMax score (d :: ds) with
         | none => some (c, d :: ds)
         | some (b, rest) =>
             if score c < score b then some (b, c :: rest) else some (c, d :: ds))
        from rfl, hd]
    dsimp only
    rw [if_neg (not_lt.mpr hsel)]

theorem mmrGreedy_one (rel : α → ℚ) (sim : α → α → ℚ) :
    ∀ (k : Nat) (cands selected : List α),
      List.Pairwise (fun a b => rel b ≤ rel a) cands →
      mmrGreedy 1 rel sim k selected cands = cands.take k := by
  intro k
  induction k with
  | zero =>
    intro cands selected _
    rfl
  | succ k ih =>
    intro cands selected hp
    cases cands with
    | nil => rfl
    | cons c cs =>
      have hext : extractMax (mmrScore 1 rel sim selected) (c :: cs) = some (c, cs) := by
        rw [mmrScore_one rel sim selected]
        exact extractMax_sorted _ c cs hp
      rw [show mmrGreedy 1 rel sim (k + 1) selected (c :: cs) =
          (match extractMax (mmrScore 1 rel sim selected) (c :: cs) with
           | none => []
           | some (x, rest) => x :: mmrGreedy 1 rel sim k (selected ++ [x]) rest)
          from rfl, hext]
      dsimp only
      rw [ih cs (selected ++ [c]) (List.pairwise_cons.mp hp).2, List.take_succ_cons]

theorem sorted_insertionSort_rel (rel : α → ℚ) (l : List α) :
    List.Pairwise (fun a b => rel b ≤ rel a) (List.insertionSort (relGE rel) l) :=
  List.sorted_insertionSort (relGE rel) l

/-- C6: with lambda = 1 the greedy MMR selection degenerates to pure
descending-relevance ranking: for every relevance and similarity
assignment, every k and every fetch_k at least k, mmr_search with
lambda = 1 returns exactly the first k results of similarity_search, in
the same order. -/
theorem mmrSearch_lambda_one (rel : α → ℚ) (sim : α → α → ℚ) (k fetch_k : Nat)
    (docs : List α) (h : k ≤ fetch_k) :
    mmrSearch rel sim 1 k fetch_k docs = similaritySearch rel k docs := by
  unfold mmrSearch similaritySearch
  rw [mmrGreedy_one rel sim k ((List.insertionSort (relGE rel) docs).take fetch_k) []
      (List.Pairwise.sublist (List.take_sublist fetch_k _)
        (sorted_insertionSort_rel rel docs)),
    List.take_take]
  have hmin : k ⊓ fetch_k = k := inf_eq_left.mpr h
  rw [hmin]

/-- Witness for mmrSearch_lambda_one on three documents with distinct
relevance scores and k = 2, fetch_k = 3. -/
theorem mmrSearch_lambda_one_witness :
    (2 : Nat) ≤ 3 ∧
      mmrSearch (fun n : Nat => (n : ℚ)) (fun _ _ => 0) 1 2 3 [1, 2, 3] =
        similaritySearch (fun n : Nat => (n : ℚ)) 2 [1, 2, 3] :=
  ⟨by decide, mmrSearch_lambda_one (fun n : Nat => (n : ℚ)) (fun _ _ => 0) 2 3 [1, 2, 3]
    (by decide)⟩

theorem similaritySearch_subset (rel : α → ℚ) (k : Nat) (docs : List α) :
    ∀ x ∈ similaritySearch rel k docs, x ∈ docs := by
  intro x hx
  have h1 : x ∈ List.insertionSort (relGE rel) docs :=
    (List.take_sublist k _).subset hx
  exact (List.perm_insertionSort (relGE rel) docs).mem_iff.mp h1

theorem similaritySearch_length (rel : α → ℚ) (k : Nat) (docs : List α) :
    (similaritySearch rel k docs).length = k ⊓ docs.length := by
  unfold similaritySearch
  rw [List.length_take, (List.perm_insertionSort (relGE rel) docs).length_eq]

theorem verify_ingestion_ok (topic : String) (q : Option String)
    (rel : String → ChunkDoc → ℚ) (k : Nat) (store : VectorStore) :
    verify_ingestion topic q (chromaRetrieve rel k store) =
      { found := decide (0 < ((similaritySearch (rel (q.getD topic)) k store.docs).filter
          (fun d => dictGet d.meta "topic" == some topic)).length),
        chunks_found := some ((similaritySearch (rel (q.getD topic)) k store.docs).filter
          (fun d => dictGet d.meta "topic" == some topic)).length,
        total_results := some (similaritySearch (rel (q.getD topic)) k store.docs).length,
        sample_content := some (((similaritySearch (rel (q.getD topic)) k store.docs).filter
          (fun d => dictGet d.meta "topic" == some topic)).head?.map
            (fun d => pyTake d.page_content 200)),
        error := none } := rfl

/-- C7 counterexample: a successful add_report on a store already holding
three chunks of another topic that outrank every document, followed by
verify_ingestion for the ingested topic, reports found=false, because the
three retrieved results all carry the other topic. -/
theorem add_report_verify_cex :
    100 ≤ (pyStrip content100).length ∧
    (add_report "t0" "research_reports" store0 content100 "T" [] 1000 200).1.success = true ∧
    (verify_ingestion "T" none (chromaRetrieve relOther 3
        (add_report "t0" "research_reports" store0 content100 "T" [] 1000 200).2)).found =
      false :=
  ⟨by decide, by decide, by decide⟩

/-- C7 amended: on a store that was empty before the call, a successful
add_report of content with trimmed length at least 100 followed by
verify_ingestion of the same topic yields found=true and at least one
topic chunk found, for every relevance ranking. -/
theorem add_report_then_verify_fresh (now coll content topic : String)
    (rel : String → ChunkDoc → ℚ) (res : AddResult) (store' : VectorStore)
    (hlen100 : 100 ≤ (pyStrip content).length)
    (h : add_report now coll { docs := [] } content topic [] 1000 200 = (res, store'))
    (hs : res.success = true) :
    (verify_ingestion topic none (chromaRetrieve rel 3 store')).found = true ∧
    1 ≤ (verify_ingestion topic none (chromaRetrieve rel 3 store')).chunks_found.getD 0 := by
  have hres : res = (addReportCore now coll content topic [] 1000 200).1 :=
    (congrArg Prod.fst h).symm
  have hdocs : store'.docs = (addReportCore now coll content topic [] 1000 200).2 := by
    have h2 := (congrArg (fun p => (Prod.snd p).docs) h).symm
    simpa using h2
  rw [hres] at hs
  obtain ⟨chunks, hne, hcore⟩ := addReportCore_success now coll content topic [] 1000 200 hs
  have htop : ∀ d ∈ store'.docs, (dictGet d.meta "topic" == some topic) = true := by
    intro d hd
    rw [hdocs] at hd
    rw [addReportCore_docs_meta now coll content topic [] 1000 200 d hd]
    simp [show dictGet (dictUpdate (baseMetadata topic now coll) []) "topic" = some topic
      from rfl]
  have hlen : 1 ≤ store'.docs.length := by
    rw [hdocs, hcore]
    dsimp only
    rw [mkDocuments_length]
    exact List.length_pos.mpr hne
  have hfilter : (similaritySearch (rel topic) 3 store'.docs).filter
      (fun d => dictGet d.meta "topic" == some topic) =
      similaritySearch (rel topic) 3 store'.docs := by
    rw [List.filter_eq_self]
    intro d hd
    exact htop d (similaritySearch_subset (rel topic) 3 store'.docs d hd)
  rw [verify_ingestion_ok topic none rel 3 store']
  simp only [Option.getD_none, Option.getD_some]
  simp only [hfilter, similaritySearch_length]
  constructor
  · rw [decide_eq_true_iff]
    omega
  · omega

/-- Witness for add_report_then_verify_fresh: ingesting a one-hundred
character report into an empty store and verifying it under the constant
ranking finds the report. -/
theorem add_report_then_verify_fresh_witness :
    (verify_ingestion "T" none (chromaRetrieve relZero 3
        (add_report "t0" "research_reports" { docs := [] } content100 "T" [] 1000 200).2)).found =
      true ∧
    1 ≤ (verify_ingestion "T" none (chromaRetrieve relZero 3
        (add_report "t0" "research_reports" { docs := [] } content100 "T" [] 1000 200).2)).chunks_found.getD
        0 :=
  add_report_then_verify_fresh "t0" "research_reports" content100 "T" relZero
    (add_report "t0" "research_reports" { docs := [] } content100 "T" [] 1000 200).1
    (add_report "t0" "research_reports" { docs := [] } content100 "T" [] 1000 200).2
    (by decide) rfl (by decide)

/-- C9 counterexample: when the underlying store operation fails,
list_ingested_reports returns the empty list, exactly the value it returns
for a reachable store with zero matches, so the failure does not propagate
as an error to the caller. -/
theorem list_reports_failure_cex :
    list_ingested_reports (fun _ => Except.error "store unreachable") =
      list_ingested_reports (fun _ => Except.ok []) ∧
    list_ingested_reports (fun _ => Except.error "store unreachable") = [] :=
  ⟨rfl, rfl⟩

/-- C9 amended: verify_ingestion surfaces a store failure in-band, as
found=false with the error message in the result and the count fields
absent, while list_ingested_reports swallows the failure and returns the
empty list, indistinguishable from a store with zero matches; a query
returning zero matches is a normal success in both operations. -/
theorem retrieval_failure_inband (topic : String) (q : Option String) (e : String) :
    verify_ingestion topic q (fun _ => Except.error e) =
      { found := false, chunks_found := none, total_results := none,
        sample_content := none, error := some e } ∧
    list_ingested_reports (fun _ => Except.error e) = [] ∧
    verify_ingestion topic q (fun _ => Except.ok []) =
      { found := false, chunks_found := some 0, total_results := some 0,
        sample_content := some none, error := none } :=
  ⟨rfl, rfl, rfl⟩

/-- C10: on a reachable store, verify_ingestion returns a record carrying
all four fields found, chunks_found, total_results and sample_content,
with found=true exactly when chunks_found is positive, chunks_found at
most total_results at most 3, and sample_content a non-null preview of at
most 200 characters that is a prefix of the first topic-matching retrieved
chunk exactly when chunks_found is positive, and null otherwise. -/
theorem verify_ingestion_fields (rel : String → ChunkDoc → ℚ) (store : VectorStore)
    (topic : String) :
    ∃ cf tr sc,
      (verify_ingestion topic none (chromaRetrieve rel 3 store)).chunks_found = some cf ∧
      (verify_ingestion topic none (chromaRetrieve rel 3 store)).total_results = some tr ∧
      (verify_ingestion topic none (chromaRetrieve rel 3 store)).sample_content = some sc ∧
      (verify_ingestion topic none (chromaRetrieve rel 3 store)).error = none ∧
      ((verify_ingestion topic none (chromaRetrieve rel 3 store)).found = true ↔ 0 < cf) ∧
      cf ≤ tr ∧ tr ≤ 3 ∧
      ((0 < cf ∧ ∃ d,
          ((similaritySearch (rel topic) 3 store.docs).filter
            (fun x => dictGet x.meta "topic" == some topic)).head? = some d ∧
          d ∈ store.docs ∧ dictGet d.meta "topic" = some topic ∧
          sc = some (pyTake d.page_content 200) ∧
          (pyTake d.page_content 200).length ≤ 200 ∧
          ∃ rest, d.page_content.data = (pyTake d.page_content 200).data ++ rest) ∨
       (cf = 0 ∧ sc = none)) := by
  rw [verify_ingestion_ok topic none rel 3 store]
  simp only [Option.getD_none]
  refine ⟨_, _, _, rfl, rfl, rfl, trivial, ?_, ?_, ?_, ?_⟩
  · exact decide_eq_true_iff
  · exact List.length_filter_le _ _
  · rw [similaritySearch_length]
    exact inf_le_left
  · cases hft : ((similaritySearch (rel topic) 3 store.docs).filter
        (fun d => dictGet d.meta "topic" == some topic)) with
    | nil =>
      right
      simp
    | cons d ds =>
      left
      have hdmem : d ∈ (similaritySearch (rel topic) 3 store.docs).filter
          (fun x => dictGet x.meta "topic" == some topic) := by
        rw [hft]
        simp
      have hdf := List.mem_filter.mp hdmem
      exact ⟨by simp, d, rfl,
        similaritySearch_subset (rel topic) 3 store.docs d hdf.1,
        eq_of_beq hdf.2, rfl, List.length_take_le 200 d.page_content.data,
        d.page_content.data.drop 200,
        (List.take_append_drop 200 d.page_content.data).symm⟩

/-- Witness for verify_ingestion_fields at a concrete populated store. -/
theorem verify_ingestion_fields_witness :
    ∃ cf tr sc,
      (verify_ingestion "other" none (chromaRetrieve relZero 3 store0)).chunks_found = some cf ∧
      (verify_ingestion "other" none (chromaRetrieve relZero 3 store0)).total_results = some tr ∧
      (verify_ingestion "other" none (chromaRetrieve relZero 3 store0)).sample_content = some sc ∧
      (verify_ingestion "other" none (chromaRetrieve relZero 3 store0)).error = none ∧
      ((verify_ingestion "other" none (chromaRetrieve relZero 3 store0)).found = true ↔ 0 < cf) ∧
      cf ≤ tr ∧ tr ≤ 3 ∧
      ((0 < cf ∧ ∃ d,
          ((similaritySearch (relZero "other") 3 store0.docs).filter
            (fun x => dictGet x.meta "topic" == some "other")).head? = some d ∧
          d ∈ store0.docs ∧ dictGet d.meta "topic" = some "other" ∧
          sc = some (pyTake d.page_content 200) ∧
          (pyTake d.page_content 200).length ≤ 200 ∧
          ∃ rest, d.page_content.data = (pyTake d.page_content 200).data ++ rest) ∨
       (cf = 0 ∧ sc = none)) :=
  verify_ingestion_fields relZero store0 "other"

end NamiRag
